import Mathlib

/-!
Shallow embedding of the silver price dashboard script (src/CIA-1.py) and
proofs about its specification claims.

Tabular data is modelled as lists of records; decimal columns as rationals;
Python dictionaries as association lists in source order; nullable columns
as Option values.  Streamlit control flow (st.stop halting the script,
st.error and st.warning emitting messages) is modelled explicitly in a
render function that reports which sections of the page were produced.
-/

namespace SilverDash

/-- A row of the historical price table: columns Year and
Silver_Price_INR_per_kg. -/
structure PriceRecord where
  year : Int
  price : ℚ
deriving DecidableEq, Repr

/-- A row of the purchase table: columns State and Silver_Purchased_kg. -/
structure PurchaseRecord where
  state : String
  quantity_kg : ℚ
deriving DecidableEq, Repr

/-! ### Sidebar cost calculator (lines 47 to 56) -/

/-- Fixed conversion rate, line 52: usd_rate = 83.0. -/
def usd_rate : ℚ := 83

/-- Line 54: weight if unit == "grams" else weight * 1000. -/
def weight_in_grams (weight : ℚ) (unit : String) : ℚ :=
  if unit = "grams" then weight else weight * 1000

/-- Line 55: weight_in_grams * price_per_gram. -/
def total_cost_inr (weight : ℚ) (unit : String) (price_per_gram : ℚ) : ℚ :=
  weight_in_grams weight unit * price_per_gram

/-- Line 56: total_cost_inr / usd_rate if currency == "USD" else total_cost_inr. -/
def total_cost (weight : ℚ) (unit : String) (price_per_gram : ℚ)
    (currency : String) : ℚ :=
  if currency = "USD" then total_cost_inr weight unit price_per_gram / usd_rate
  else total_cost_inr weight unit price_per_gram

/-! ### Price band filters (lines 70 to 78) -/

/-- Line 71: rows with Silver_Price_INR_per_kg <= 20000. -/
def filtered_price_low (price_df : List PriceRecord) : List PriceRecord :=
  price_df.filter (fun r => decide (r.price ≤ 20000))

/-- Lines 73 to 76: rows with 20000 < Silver_Price_INR_per_kg < 30000. -/
def filtered_price_mid (price_df : List PriceRecord) : List PriceRecord :=
  price_df.filter (fun r => decide (20000 < r.price) && decide (r.price < 30000))

/-- Line 78: rows with Silver_Price_INR_per_kg >= 30000. -/
def filtered_price_high (price_df : List PriceRecord) : List PriceRecord :=
  price_df.filter (fun r => decide (30000 ≤ r.price))

/-- The three band filters split any price table into three pieces that
together are a permutation of the table. -/
lemma bands_perm (price_df : List PriceRecord) :
    ((filtered_price_low price_df ++ filtered_price_mid price_df)
      ++ filtered_price_high price_df).Perm price_df := by
  induction price_df with
  | nil => simp [filtered_price_low, filtered_price_mid, filtered_price_high]
  | cons r t ih =>
    simp only [filtered_price_low, filtered_price_mid, filtered_price_high] at *
    rcases le_or_lt r.price 20000 with h1 | h1
    · have e1 : List.filter (fun x => decide (x.price ≤ 20000)) (r :: t) =
          r :: List.filter (fun x => decide (x.price ≤ 20000)) t := by
        simp [List.filter_cons, h1]
      have e2 : List.filter (fun x =>
          decide (20000 < x.price) && decide (x.price < 30000)) (r :: t) =
          List.filter (fun x =>
            decide (20000 < x.price) && decide (x.price < 30000)) t := by
        simp [List.filter_cons, not_lt.mpr h1]
      have e3 : List.filter (fun x => decide (30000 ≤ x.price)) (r :: t) =
          List.filter (fun x => decide (30000 ≤ x.price)) t := by
        have : ¬ (30000 : ℚ) ≤ r.price := by linarith
        simp [List.filter_cons, this]
      rw [e1, e2, e3]
      exact ih.cons r
    · rcases lt_or_le r.price 30000 with h2 | h2
      · have e1 : List.filter (fun x => decide (x.price ≤ 20000)) (r :: t) =
            List.filter (fun x => decide (x.price ≤ 20000)) t := by
          simp [List.filter_cons, not_le.mpr h1]
        have e2 : List.filter (fun x =>
            decide (20000 < x.price) && decide (x.price < 30000)) (r :: t) =
            r :: List.filter (fun x =>
              decide (20000 < x.price) && decide (x.price < 30000)) t := by
          simp [List.filter_cons, h1, h2]
        have e3 : List.filter (fun x => decide (30000 ≤ x.price)) (r :: t) =
            List.filter (fun x => decide (30000 ≤ x.price)) t := by
          simp [List.filter_cons, not_le.mpr h2]
        rw [e1, e2, e3]
        have hmid : (List.filter (fun x => decide (x.price ≤ 20000)) t ++
            (r :: List.filter (fun x =>
              decide (20000 < x.price) && decide (x.price < 30000)) t)) ++
            List.filter (fun x => decide (30000 ≤ x.price)) t =
            List.filter (fun x => decide (x.price ≤ 20000)) t ++
            r :: (List.filter (fun x =>
              decide (20000 < x.price) && decide (x.price < 30000)) t ++
              List.filter (fun x => decide (30000 ≤ x.price)) t) := by
          simp
        rw [hmid]
        refine List.Perm.trans List.perm_middle ?_
        refine List.Perm.cons r ?_
        simpa [List.append_assoc] using ih
      · have e1 : List.filter (fun x => decide (x.price ≤ 20000)) (r :: t) =
            List.filter (fun x => decide (x.price ≤ 20000)) t := by
          simp [List.filter_cons, not_le.mpr h1]
        have e2 : List.filter (fun x =>
            decide (20000 < x.price) && decide (x.price < 30000)) (r :: t) =
            List.filter (fun x =>
              decide (20000 < x.price) && decide (x.price < 30000)) t := by
          simp [List.filter_cons, not_lt.mpr h2]
        have e3 : List.filter (fun x => decide (30000 ≤ x.price)) (r :: t) =
            r :: List.filter (fun x => decide (30000 ≤ x.price)) t := by
          simp [List.filter_cons, h2]
        rw [e1, e2, e3]
        refine List.Perm.trans List.perm_middle ?_
        exact List.Perm.cons r ih

/-- C5: For every set of price records, the three price bands
(price <= 20000; 20000 < price < 30000; price >= 30000) are pairwise
disjoint and their union equals the unfiltered set: every record falls in
exactly one band under the documented inclusive and exclusive boundaries. -/
theorem C5_price_bands_partition (price_df : List PriceRecord) :
    ((filtered_price_low price_df ++ filtered_price_mid price_df)
      ++ filtered_price_high price_df).Perm price_df ∧
    (∀ r : PriceRecord,
      ¬ (r ∈ filtered_price_low price_df ∧ r ∈ filtered_price_mid price_df) ∧
      ¬ (r ∈ filtered_price_mid price_df ∧ r ∈ filtered_price_high price_df) ∧
      ¬ (r ∈ filtered_price_low price_df ∧ r ∈ filtered_price_high price_df)) ∧
    (∀ r ∈ price_df, r ∈ filtered_price_low price_df ∨
      r ∈ filtered_price_mid price_df ∨ r ∈ filtered_price_high price_df) := by
  refine ⟨bands_perm price_df, ?_, ?_⟩
  · intro r
    refine ⟨?_, ?_, ?_⟩
    · rintro ⟨hl, hm⟩
      have h1 := (List.mem_filter.mp hl).2
      have h2 := (List.mem_filter.mp hm).2
      simp only [decide_eq_true_eq, Bool.and_eq_true] at h1 h2
      linarith [h2.1]
    · rintro ⟨hm, hh⟩
      have h1 := (List.mem_filter.mp hm).2
      have h2 := (List.mem_filter.mp hh).2
      simp only [decide_eq_true_eq, Bool.and_eq_true] at h1 h2
      linarith [h1.2]
    · rintro ⟨hl, hh⟩
      have h1 := (List.mem_filter.mp hl).2
      have h2 := (List.mem_filter.mp hh).2
      simp only [decide_eq_true_eq] at h1 h2
      linarith
  · intro r hr
    rcases le_or_lt r.price 20000 with h1 | h1
    · exact Or.inl (List.mem_filter.mpr ⟨hr, decide_eq_true h1⟩)
    · rcases lt_or_le r.price 30000 with h2 | h2
      · refine Or.inr (Or.inl (List.mem_filter.mpr ⟨hr, ?_⟩))
        simp only [Bool.and_eq_true, decide_eq_true_eq]
        exact ⟨h1, h2⟩
      · exact Or.inr (Or.inr (List.mem_filter.mpr ⟨hr, decide_eq_true h2⟩))

/-- Converting one kilogram and one thousand grams give the same gram count. -/
lemma weight_in_grams_kg :
    weight_in_grams 1 "kilograms" = weight_in_grams 1000 "grams" := by
  unfold weight_in_grams
  rw [if_neg (by decide : ¬ ("kilograms" : String) = "grams"), if_pos rfl]
  norm_num

/-- C6: the cost calculator computes weight-in-grams times price per gram,
divided by the fixed rate exactly when USD is requested; converting one
kilogram equals converting one thousand grams; the USD cost is the INR cost
divided by the rate; the total is nonnegative; and zero weight or zero
price gives total zero. -/
theorem C6_cost_calculator (weight price_per_gram : ℚ) (unit currency : String)
    (hw : 0 ≤ weight) (hp : 0 ≤ price_per_gram)
    (_hu : unit = "grams" ∨ unit = "kilograms")
    (_hc : currency = "INR" ∨ currency = "USD") :
    total_cost weight unit price_per_gram currency =
      (if unit = "grams" then weight else weight * 1000) * price_per_gram /
        (if currency = "USD" then usd_rate else 1) ∧
    total_cost 1 "kilograms" price_per_gram currency =
      total_cost 1000 "grams" price_per_gram currency ∧
    total_cost weight unit price_per_gram "USD" =
      total_cost weight unit price_per_gram "INR" / usd_rate ∧
    0 ≤ total_cost weight unit price_per_gram currency ∧
    ((weight = 0 ∨ price_per_gram = 0) →
      total_cost weight unit price_per_gram currency = 0) := by
  have hmul : 0 ≤ weight_in_grams weight unit * price_per_gram := by
    unfold weight_in_grams
    split
    · exact mul_nonneg hw hp
    · exact mul_nonneg (by linarith) hp
  refine ⟨?_, ?_, ?_, ?_, ?_⟩
  · unfold total_cost total_cost_inr weight_in_grams
    split
    · rfl
    · rw [div_one]
  · unfold total_cost total_cost_inr
    rw [weight_in_grams_kg]
  · unfold total_cost
    rw [if_pos rfl, if_neg (by decide : ¬ ("INR" : String) = "USD")]
  · unfold total_cost total_cost_inr
    split
    · exact div_nonneg hmul (by norm_num [usd_rate])
    · exact hmul
  · rintro (h | h) <;>
      simp [total_cost, total_cost_inr, weight_in_grams, h]

/-- C6 witness: the theorem applied at weight 2 kilograms, price 50, USD. -/
theorem C6_cost_calculator_witness :
    total_cost 2 "kilograms" 50 "USD" =
      (if ("kilograms" : String) = "grams" then (2 : ℚ) else 2 * 1000) * 50 /
        (if ("USD" : String) = "USD" then usd_rate else 1) ∧
    total_cost 1 "kilograms" 50 "USD" = total_cost 1000 "grams" 50 "USD" ∧
    total_cost 2 "kilograms" 50 "USD" = total_cost 2 "kilograms" 50 "INR" / usd_rate ∧
    0 ≤ total_cost 2 "kilograms" 50 "USD" ∧
    (((2 : ℚ) = 0 ∨ (50 : ℚ) = 0) → total_cost 2 "kilograms" 50 "USD" = 0) :=
  C6_cost_calculator 2 50 "kilograms" "USD" (by norm_num) (by norm_num)
    (Or.inr rfl) (Or.inr rfl)


/-! ### Top five states and the January total (lines 204 to 239)

The script never groups the purchase table by state: line 207 sorts the raw
rows of sales_df by Silver_Purchased_kg descending (pandas sort_values with
its default, non stable quicksort) and line 209 takes the first five; line
232 sums the quantity column of the raw table.  The sort is modelled
relationally: pandas only guarantees a reordering of the rows that is
sorted descending on the key, with no promise about the order of ties. -/

/-- Descending key order on purchase rows: the left row has at least the
quantity of the right one. -/
def qtyGe (a b : PurchaseRecord) : Prop := b.quantity_kg ≤ a.quantity_kg

instance : DecidableRel qtyGe := fun a b =>
  inferInstanceAs (Decidable (b.quantity_kg ≤ a.quantity_kg))

/-- Lines 207 to 209 without the final head(5): the guarantee pandas gives
for sort_values("Silver_Purchased_kg", ascending=False): the output is some
reordering of sales_df that is sorted descending by quantity. -/
def is_sort_values_desc (sales_df l : List PurchaseRecord) : Prop :=
  l.Perm sales_df ∧ l.Sorted qtyGe

/-- Line 209: head(5) takes the first five rows of the sorted table. -/
def head5 (l : List PurchaseRecord) : List PurchaseRecord := l.take 5

/-- Line 232: sales_df[qty_col].sum() over the raw, ungrouped table. -/
def total_january_sales (sales_df : List PurchaseRecord) : ℚ :=
  (sales_df.map PurchaseRecord.quantity_kg).sum

/-- The purchase table of the worked example in the specification. -/
def exampleRows : List PurchaseRecord :=
  [⟨"Kerala", 10⟩, ⟨"Kerala", 5⟩, ⟨"Goa", 3⟩]

/-- On the example table the descending sorted reordering is unique,
because the three quantities are pairwise distinct. -/
lemma sorted_desc_example_unique (l : List PurchaseRecord)
    (hperm : l.Perm exampleRows) (hsort : l.Sorted qtyGe) :
    l = [⟨"Kerala", 10⟩, ⟨"Kerala", 5⟩, ⟨"Goa", 3⟩] := by
  have hlen : l.length = 3 := by simpa [exampleRows] using hperm.length_eq
  obtain ⟨a, b, c, rfl⟩ : ∃ a b c, l = [a, b, c] := by
    match l, hlen with
    | [a, b, c], _ => exact ⟨a, b, c, rfl⟩
  have hrel := List.rel_of_sorted_cons hsort
  have hamem : a ∈ exampleRows := hperm.subset (by simp)
  have hK10 : (⟨"Kerala", 10⟩ : PurchaseRecord) ∈ [a, b, c] :=
    hperm.mem_iff.mpr (by simp [exampleRows])
  simp only [List.mem_cons, List.not_mem_nil, or_false] at hK10
  have ha10 : (10 : ℚ) ≤ a.quantity_kg := by
    rcases hK10 with h | h | h
    · rw [← h]
    · have hq := hrel b (by simp)
      unfold qtyGe at hq
      rw [← h] at hq
      exact hq
    · have hq := hrel c (by simp)
      unfold qtyGe at hq
      rw [← h] at hq
      exact hq
  have ha : a = ⟨"Kerala", 10⟩ := by
    simp only [exampleRows, List.mem_cons, List.not_mem_nil, or_false] at hamem
    rcases hamem with h | h | h
    · exact h
    · exfalso; rw [h] at ha10; norm_num at ha10
    · exfalso; rw [h] at ha10; norm_num at ha10
  subst ha
  have h2 : List.Perm [b, c] [⟨"Kerala", 5⟩, ⟨"Goa", 3⟩] := by
    have h3 : List.Perm (PurchaseRecord.mk "Kerala" 10 :: [b, c])
        (PurchaseRecord.mk "Kerala" 10 :: [⟨"Kerala", 5⟩, ⟨"Goa", 3⟩]) := by
      simpa [exampleRows] using hperm
    exact h3.cons_inv
  have hbmem : b ∈ [(⟨"Kerala", 5⟩ : PurchaseRecord), ⟨"Goa", 3⟩] :=
    h2.subset (by simp)
  have hsort2 := hsort.of_cons
  have hcb : qtyGe b c := List.rel_of_sorted_cons hsort2 c (by simp)
  unfold qtyGe at hcb
  simp only [List.mem_cons, List.not_mem_nil, or_false] at hbmem
  rcases hbmem with hb | hb
  · subst hb
    have h4 : List.Perm [c] [(⟨"Goa", 3⟩ : PurchaseRecord)] := h2.cons_inv
    have hc : c = ⟨"Goa", 3⟩ := by
      have h5 := List.perm_singleton.mp h4
      simpa using h5
    rw [hc]
  · exfalso
    subst hb
    have hK5 : (⟨"Kerala", 5⟩ : PurchaseRecord) ∈
        [(⟨"Goa", 3⟩ : PurchaseRecord), c] := h2.mem_iff.mpr (by simp)
    simp only [List.mem_cons, List.not_mem_nil, or_false] at hK5
    rcases hK5 with h | h
    · exact absurd h (by norm_num [PurchaseRecord.mk.injEq])
    · rw [← h] at hcb
      norm_num at hcb

/-- In any descending sorted reordering of the table, a row whose quantity
strictly exceeds that of every other row comes first. -/
lemma unique_max_head (sales_df l : List PurchaseRecord)
    (h : is_sort_values_desc sales_df l) (r : PurchaseRecord)
    (hr : r ∈ sales_df)
    (hmax : ∀ x ∈ sales_df, x ≠ r → x.quantity_kg < r.quantity_kg) :
    l.head? = some r := by
  obtain ⟨hperm, hsort⟩ := h
  have hrl : r ∈ l := hperm.mem_iff.mpr hr
  cases l with
  | nil => simp at hrl
  | cons a t =>
    simp only [List.head?_cons, Option.some.injEq]
    by_contra hne
    have hal : a ∈ sales_df := hperm.subset (by simp)
    have hlt : a.quantity_kg < r.quantity_kg := hmax a hal hne
    have hrt : r ∈ t := by
      rcases List.mem_cons.mp hrl with h | h
      · exact absurd h.symm hne
      · exact h
    have hge := List.rel_of_sorted_cons hsort r hrt
    unfold qtyGe at hge
    linarith

/-- C1 counterexample: the claimed grouped top two cannot arise on the
example table, since the purported grouped row (Kerala, 15) is not a row of
the raw table and line 207 sorts raw rows without any group by. -/
theorem C1_counterexample :
    ¬ ∃ l, is_sort_values_desc exampleRows l ∧
      l.take 2 = [⟨"Kerala", 15⟩, ⟨"Goa", 3⟩] := by
  rintro ⟨l, ⟨hperm, -⟩, htake⟩
  have h1 : (⟨"Kerala", 15⟩ : PurchaseRecord) ∈ l.take 2 := by
    rw [htake]; simp
  have hmem : (⟨"Kerala", 15⟩ : PurchaseRecord) ∈ l :=
    (List.take_sublist 2 l).subset h1
  have h2 : (⟨"Kerala", 15⟩ : PurchaseRecord) ∈ exampleRows :=
    hperm.mem_iff.mp hmem
  norm_num [exampleRows, PurchaseRecord.mk.injEq] at h2

/-- C1 (amended): the script performs no group by: the sorted table used by
the top five section has exactly one row per raw purchase row, so on the
example table the top two rows are (Kerala, 10) and (Kerala, 5), not the
grouped sums; the full table total still sums every raw row and equals 18. -/
theorem C1_no_group_by (sales_df l : List PurchaseRecord)
    (h : is_sort_values_desc sales_df l) :
    l.length = sales_df.length ∧
    (∀ l2, is_sort_values_desc exampleRows l2 →
      l2.take 2 = [⟨"Kerala", 10⟩, ⟨"Kerala", 5⟩]) ∧
    total_january_sales exampleRows = 18 := by
  refine ⟨h.1.length_eq, ?_, ?_⟩
  · intro l2 h2
    rw [sorted_desc_example_unique l2 h2.1 h2.2]
    rfl
  · norm_num [total_january_sales, exampleRows]

/-- C1 witness: the amended theorem applied to the example table and its
descending reordering. -/
theorem C1_no_group_by_witness :
    ([(⟨"Kerala", 10⟩ : PurchaseRecord), ⟨"Kerala", 5⟩,
      ⟨"Goa", 3⟩]).length = exampleRows.length ∧
    (∀ l2, is_sort_values_desc exampleRows l2 →
      l2.take 2 = [⟨"Kerala", 10⟩, ⟨"Kerala", 5⟩]) ∧
    total_january_sales exampleRows = 18 :=
  C1_no_group_by exampleRows
    [⟨"Kerala", 10⟩, ⟨"Kerala", 5⟩, ⟨"Goa", 3⟩]
    ⟨List.Perm.refl _, by decide⟩

/-- C2 counterexample: on the example table the top five selection keeps
three rows although only two distinct region names occur, so its length is
not the minimum of five and the distinct region count. -/
theorem C2_counterexample :
    is_sort_values_desc exampleRows
      [⟨"Kerala", 10⟩, ⟨"Kerala", 5⟩, ⟨"Goa", 3⟩] ∧
    (head5 [⟨"Kerala", 10⟩, ⟨"Kerala", 5⟩, ⟨"Goa", 3⟩]).length = 3 ∧
    (exampleRows.map PurchaseRecord.state).dedup.length = 2 ∧
    (3 : ℕ) ≠ min 5 2 :=
  ⟨⟨List.Perm.refl _, by decide⟩, by decide, by decide, by decide⟩

/-- C2 (amended): the top five selection of line 207 to 209 keeps
min(5, raw row count) rows, not min(5, distinct region count); the kept rows
are sorted descending by quantity (tie order is whatever the non stable
quicksort produced), and a row whose quantity strictly exceeds all others is
always first. -/
theorem C2_topN_amended (sales_df l : List PurchaseRecord)
    (h : is_sort_values_desc sales_df l) :
    (head5 l).length = min 5 sales_df.length ∧
    (head5 l).Sorted qtyGe ∧
    (∀ r ∈ sales_df, (∀ x ∈ sales_df, x ≠ r → x.quantity_kg < r.quantity_kg) →
      (head5 l).head? = some r) := by
  refine ⟨?_, ?_, ?_⟩
  · rw [head5, List.length_take, h.1.length_eq]
  · exact (h.2).sublist (List.take_sublist 5 l)
  · intro r hr hmax
    have hh := unique_max_head sales_df l h r hr hmax
    cases l with
    | nil => simp at hh
    | cons a t => simpa [head5] using hh

/-- C2 witness: the amended theorem applied to the example table and its
descending reordering. -/
theorem C2_topN_amended_witness :
    (head5 [(⟨"Kerala", 10⟩ : PurchaseRecord), ⟨"Kerala", 5⟩,
      ⟨"Goa", 3⟩]).length = min 5 exampleRows.length ∧
    (head5 [(⟨"Kerala", 10⟩ : PurchaseRecord), ⟨"Kerala", 5⟩,
      ⟨"Goa", 3⟩]).Sorted qtyGe ∧
    (∀ r ∈ exampleRows,
      (∀ x ∈ exampleRows, x ≠ r → x.quantity_kg < r.quantity_kg) →
      (head5 [(⟨"Kerala", 10⟩ : PurchaseRecord), ⟨"Kerala", 5⟩,
        ⟨"Goa", 3⟩]).head? = some r) :=
  C2_topN_amended exampleRows
    [⟨"Kerala", 10⟩, ⟨"Kerala", 5⟩, ⟨"Goa", 3⟩]
    ⟨List.Perm.refl _, by decide⟩


/-! ### Name normalization (lines 96 to 99)

The function normalize_state_name does value = str(value or ""), then
value.strip(), then " ".join(value.split()).  The string transformations
are modelled on character lists: strip removes leading and trailing
whitespace, split with no argument returns the maximal runs of
non-whitespace characters, and join glues them with single spaces. -/

/-- Whitespace characters recognised by str.strip() and str.split(). -/
def isPySpace (c : Char) : Bool :=
  c == ' ' || c == '\t' || c == '\n' || c == '\r' || c == '\x0b' || c == '\x0c'

/-- Python str.strip(): drop leading and trailing whitespace. -/
def stripCs (cs : List Char) : List Char :=
  ((cs.dropWhile isPySpace).reverse.dropWhile isPySpace).reverse

/-- Python str.split() with no argument: the maximal runs of non
whitespace characters, in order, with empty runs dropped. -/
def splitCs : List Char → List (List Char)
  | [] => []
  | c :: cs =>
    if isPySpace c then splitCs cs
    else
      match cs, splitCs cs with
      | [], _ => [[c]]
      | d :: _, ts =>
        if isPySpace d then [c] :: ts
        else
          match ts with
          | [] => [[c]]
          | t :: ts2 => (c :: t) :: ts2

/-- Python " ".join on a list of words. -/
def joinSp : List (List Char) → List Char
  | [] => []
  | [t] => t
  | t :: ts => t ++ ' ' :: joinSp ts

/-- Lines 97 to 99 on the character level. -/
def normalizeCs (cs : List Char) : List Char :=
  joinSp (splitCs (stripCs cs))

/-- normalize_state_name applied to a value that is already a string. -/
def normalize_state_string (s : String) : String :=
  String.mk (normalizeCs s.data)

lemma splitCs_nil : splitCs [] = [] := rfl

lemma splitCs_cons_ws (c : Char) (cs : List Char) (h : isPySpace c = true) :
    splitCs (c :: cs) = splitCs cs := by
  simp [splitCs, h]

lemma splitCs_singleton (c : Char) (h : isPySpace c = false) :
    splitCs [c] = [[c]] := by
  simp [splitCs, h]

lemma splitCs_cons_cons_ws (c d : Char) (cs : List Char)
    (h1 : isPySpace c = false) (h2 : isPySpace d = true) :
    splitCs (c :: d :: cs) = [c] :: splitCs (d :: cs) := by
  simp [splitCs, h1, h2]

lemma splitCs_cons_cons_nws (c d : Char) (cs : List Char)
    (h1 : isPySpace c = false) (h2 : isPySpace d = false) :
    splitCs (c :: d :: cs) =
      match splitCs (d :: cs) with
      | [] => [[c]]
      | t :: ts2 => (c :: t) :: ts2 := by
  simp [splitCs, h1, h2]


/-- A run with no whitespace splits to itself. -/
lemma splitCs_token (t : List Char) (hne : t ≠ [])
    (hw : ∀ ch ∈ t, isPySpace ch = false) : splitCs t = [t] := by
  induction t with
  | nil => exact absurd rfl hne
  | cons c t ih =>
    cases t with
    | nil => exact splitCs_singleton c (hw c (by simp))
    | cons d rest =>
      have hc : isPySpace c = false := hw c (by simp)
      have hd : isPySpace d = false := hw d (by simp)
      rw [splitCs_cons_cons_nws c d rest hc hd,
        ih (by simp) (fun ch hch => hw ch (List.mem_cons_of_mem c hch))]

/-- A whitespace free run followed by a space splits to the run followed by
the split of the remainder. -/
lemma splitCs_token_append (t r : List Char) (hne : t ≠ [])
    (hw : ∀ ch ∈ t, isPySpace ch = false) :
    splitCs (t ++ ' ' :: r) = t :: splitCs r := by
  induction t with
  | nil => exact absurd rfl hne
  | cons c t ih =>
    cases t with
    | nil =>
      have hc : isPySpace c = false := hw c (by simp)
      rw [List.singleton_append,
        splitCs_cons_cons_ws c ' ' r hc (by decide),
        splitCs_cons_ws ' ' r (by decide)]
    | cons d rest =>
      have hc : isPySpace c = false := hw c (by simp)
      have hd : isPySpace d = false := hw d (by simp)
      have hih := ih (by simp) (fun ch hch => hw ch (List.mem_cons_of_mem c hch))
      rw [List.cons_append, List.cons_append,
        splitCs_cons_cons_nws c d (rest ++ ' ' :: r) hc hd]
      rw [List.cons_append] at hih
      rw [hih]

/-- Every run returned by splitCs is nonempty and whitespace free. -/
lemma splitCs_wf (cs : List Char) :
    ∀ u ∈ splitCs cs, u ≠ [] ∧ ∀ ch ∈ u, isPySpace ch = false := by
  induction cs with
  | nil => simp [splitCs_nil]
  | cons c cs ih =>
    rcases hc : isPySpace c with hcv | hcv
    · -- c is not whitespace (isPySpace c = false)
      cases cs with
      | nil =>
        rw [splitCs_singleton c hc]
        intro u hu
        simp only [List.mem_singleton] at hu
        subst hu
        exact ⟨by simp, by intro ch hch; simp only [List.mem_singleton] at hch; subst hch; exact hc⟩
      | cons d rest =>
        rcases hd : isPySpace d with hdv | hdv
        · rw [splitCs_cons_cons_nws c d rest hc hd]
          rcases hs : splitCs (d :: rest) with _ | ⟨t, ts2⟩
          · intro u hu
            simp only [List.mem_singleton] at hu
            subst hu
            refine ⟨by simp, ?_⟩
            intro ch hch
            simp only [List.mem_singleton] at hch
            subst hch
            exact hc
          · intro u hu
            simp only [List.mem_cons] at hu
            rcases hu with hu | hu
            · subst hu
              have ht := ih t (by rw [hs]; simp)
              refine ⟨by simp, ?_⟩
              intro ch hch
              simp only [List.mem_cons] at hch
              rcases hch with hch | hch
              · subst hch; exact hc
              · exact ht.2 ch hch
            · exact ih u (by rw [hs]; simp [hu])
        · rw [splitCs_cons_cons_ws c d rest hc hd]
          intro u hu
          simp only [List.mem_cons] at hu
          rcases hu with hu | hu
          · subst hu
            refine ⟨by simp, ?_⟩
            intro ch hch
            simp only [List.mem_singleton] at hch
            subst hch
            exact hc
          · exact ih u hu
    · rw [splitCs_cons_ws c cs hc]
      exact ih


/-- Splitting the space joined form of wellformed runs recovers the runs. -/
lemma splitCs_joinSp (ts : List (List Char))
    (h : ∀ t ∈ ts, t ≠ [] ∧ ∀ ch ∈ t, isPySpace ch = false) :
    splitCs (joinSp ts) = ts := by
  induction ts with
  | nil => rfl
  | cons t ts ih =>
    cases ts with
    | nil =>
      have ht := h t (by simp)
      exact splitCs_token t ht.1 ht.2
    | cons t2 ts2 =>
      have ht := h t (by simp)
      have := splitCs_token_append t (joinSp (t2 :: ts2)) ht.1 ht.2
      calc splitCs (joinSp (t :: t2 :: ts2))
          = splitCs (t ++ ' ' :: joinSp (t2 :: ts2)) := rfl
        _ = t :: splitCs (joinSp (t2 :: ts2)) := this
        _ = t :: (t2 :: ts2) := by
            rw [ih (fun u hu => h u (List.mem_cons_of_mem t hu))]

/-- Dropping leading whitespace does not change the split. -/
lemma splitCs_dropWhile (cs : List Char) :
    splitCs (cs.dropWhile isPySpace) = splitCs cs := by
  induction cs with
  | nil => rfl
  | cons c cs ih =>
    rcases hc : isPySpace c with hcv | hcv
    · rw [List.dropWhile_cons_of_neg (by simp [hc])]
    · rw [List.dropWhile_cons_of_pos (by simp [hc]), splitCs_cons_ws c cs hc]
      exact ih

/-- A list of whitespace splits to nothing. -/
lemma splitCs_all_ws (ss : List Char) (h : ∀ ch ∈ ss, isPySpace ch = true) :
    splitCs ss = [] := by
  induction ss with
  | nil => rfl
  | cons c ss ih =>
    rw [splitCs_cons_ws c ss (h c (by simp))]
    exact ih (fun ch hch => h ch (List.mem_cons_of_mem c hch))

/-- Appending trailing whitespace does not change the split. -/
lemma splitCs_append_ws (cs ss : List Char)
    (h : ∀ ch ∈ ss, isPySpace ch = true) :
    splitCs (cs ++ ss) = splitCs cs := by
  induction cs with
  | nil =>
    rw [List.nil_append, splitCs_nil]
    exact splitCs_all_ws ss h
  | cons c cs ih =>
    rcases hc : isPySpace c with hcv | hcv
    · cases cs with
      | nil =>
        cases ss with
        | nil => rfl
        | cons e ss2 =>
          have he : isPySpace e = true := h e (by simp)
          rw [List.singleton_append, splitCs_cons_cons_ws c e ss2 hc he,
            splitCs_singleton c hc,
            splitCs_all_ws (e :: ss2) h]
      | cons d rest =>
        rcases hd : isPySpace d with hdv | hdv
        · rw [List.cons_append, List.cons_append,
            splitCs_cons_cons_nws c d (rest ++ ss) hc hd,
            splitCs_cons_cons_nws c d rest hc hd]
          rw [List.cons_append] at ih
          rw [ih]
        · rw [List.cons_append, List.cons_append,
            splitCs_cons_cons_ws c d (rest ++ ss) hc hd,
            splitCs_cons_cons_ws c d rest hc hd]
          rw [List.cons_append] at ih
          rw [ih]
    · rw [List.cons_append, splitCs_cons_ws c (cs ++ ss) hc,
        splitCs_cons_ws c cs hc]
      exact ih

/-- Stripping does not change the split. -/
lemma splitCs_stripCs (cs : List Char) :
    splitCs (stripCs cs) = splitCs cs := by
  unfold stripCs
  set cs1 := cs.dropWhile isPySpace with hcs1
  have hdecomp : cs1 = (cs1.reverse.dropWhile isPySpace).reverse ++
      (cs1.reverse.takeWhile isPySpace).reverse := by
    have h1 : cs1.reverse = cs1.reverse.takeWhile isPySpace ++
        cs1.reverse.dropWhile isPySpace := (List.takeWhile_append_dropWhile isPySpace cs1.reverse).symm
    calc cs1 = cs1.reverse.reverse := (List.reverse_reverse cs1).symm
      _ = (cs1.reverse.takeWhile isPySpace ++
            cs1.reverse.dropWhile isPySpace).reverse := by rw [← h1]
      _ = (cs1.reverse.dropWhile isPySpace).reverse ++
            (cs1.reverse.takeWhile isPySpace).reverse := by
          rw [List.reverse_append]
  have hws : ∀ ch ∈ (cs1.reverse.takeWhile isPySpace).reverse,
      isPySpace ch = true := by
    intro ch hch
    rw [List.mem_reverse] at hch
    exact List.mem_takeWhile_imp hch
  calc splitCs ((cs1.reverse.dropWhile isPySpace).reverse)
      = splitCs ((cs1.reverse.dropWhile isPySpace).reverse ++
          (cs1.reverse.takeWhile isPySpace).reverse) :=
        (splitCs_append_ws _ _ hws).symm
    _ = splitCs cs1 := by rw [← hdecomp]
    _ = splitCs cs := splitCs_dropWhile cs

/-- Normalization on character lists is idempotent. -/
lemma normalizeCs_idem (cs : List Char) :
    normalizeCs (normalizeCs cs) = normalizeCs cs := by
  unfold normalizeCs
  rw [splitCs_stripCs (joinSp (splitCs (stripCs cs))),
    splitCs_joinSp _ (splitCs_wf (stripCs cs))]

/-- C7 helper: normalization of strings is idempotent. -/
lemma normalize_state_string_idem (s : String) :
    normalize_state_string (normalize_state_string s) =
      normalize_state_string s := by
  unfold normalize_state_string
  rw [normalizeCs_idem]


/-- A fragment of the Python values that can reach normalize_state_name
from a table column: missing values, strings, integers and booleans. -/
inductive PyVal
  | none
  | str (s : String)
  | int (n : Int)
  | bool (b : Bool)
deriving DecidableEq, Repr

/-- Python truthiness for the values above, as used by value or "". -/
def PyVal.truthy : PyVal → Bool
  | .none => false
  | .str s => decide (s ≠ "")
  | .int n => decide (n ≠ 0)
  | .bool b => b

/-- Python str() for the values above. -/
def PyVal.toStr : PyVal → String
  | .none => "None"
  | .str s => s
  | .int n => toString n
  | .bool b => if b then "True" else "False"

/-- Lines 96 to 99: value = str(value or ""), then strip and whitespace
collapse.  The or expression yields the empty string for every falsy value
and the value itself otherwise; str() then renders it. -/
def normalize_state_name (value : PyVal) : String :=
  normalize_state_string (PyVal.toStr (if value.truthy then value else .str ""))

/-- Lines 105 to 138: STATE_NAME_TO_CODE, an insertion ordered dict from
state name to short code. -/
def STATE_NAME_TO_CODE : List (String × String) :=
  [("Andhra Pradesh", "AP"),
   ("Arunachal Pradesh", "AR"),
   ("Assam", "AS"),
   ("Bihar", "BR"),
   ("Chhattisgarh", "CG"),
   ("Goa", "GA"),
   ("Gujarat", "GJ"),
   ("Haryana", "HR"),
   ("Himachal Pradesh", "HP"),
   ("Jharkhand", "JH"),
   ("Karnataka", "KA"),
   ("Kerala", "KL"),
   ("Madhya Pradesh", "MP"),
   ("Maharashtra", "MH"),
   ("Manipur", "MN"),
   ("Meghalaya", "ML"),
   ("Mizoram", "MZ"),
   ("Nagaland", "NL"),
   ("Odisha", "OR"),
   ("Punjab", "PB"),
   ("Rajasthan", "RJ"),
   ("Sikkim", "SK"),
   ("Tamil Nadu", "TN"),
   ("Telangana", "TG"),
   ("Tripura", "TR"),
   ("Uttar Pradesh", "UP"),
   ("Uttarakhand", "UK"),
   ("West Bengal", "WB"),
   ("Delhi", "DL"),
   ("Jammu & Kashmir", "JK"),
   ("Jammu and Kashmir", "JK"),
   ("Ladakh", "LA")]

/-- Line 142: the dict lookup done by Series.map(STATE_NAME_TO_CODE); a
name that is no key becomes a missing value, modelled as Option.none. -/
def resolve (name : String) : Option String :=
  (STATE_NAME_TO_CODE.find? (fun p => p.1 == name)).map Prod.snd

/-- C7: normalize collapses whitespace runs and trims the ends preserving
case and is idempotent; resolve of a name that is not a key of the fixed
table returns the absent value rather than throwing; the example name
normalizes to Tamil Nadu and resolves to TN. -/
theorem C7_normalize_idempotent_resolve_absent (s name : String)
    (h : ∀ p ∈ STATE_NAME_TO_CODE, p.1 ≠ name) :
    normalize_state_string (normalize_state_string s) =
      normalize_state_string s ∧
    resolve name = none ∧
    normalize_state_string " Tamil  Nadu " = "Tamil Nadu" ∧
    resolve "Tamil Nadu" = some "TN" := by
  refine ⟨normalize_state_string_idem s, ?_, by decide, by decide⟩
  have hfind : STATE_NAME_TO_CODE.find? (fun p => p.1 == name) = none :=
    List.find?_eq_none.mpr (fun p hp => by simpa using h p hp)
  simp [resolve, hfind]

/-- C7 witness: the theorem applied to the example name and a name absent
from the table. -/
theorem C7_normalize_witness :
    (normalize_state_string (normalize_state_string " Tamil  Nadu ") =
      normalize_state_string " Tamil  Nadu " ∧
    resolve "Bombay" = none ∧
    normalize_state_string " Tamil  Nadu " = "Tamil Nadu" ∧
    resolve "Tamil Nadu" = some "TN") :=
  C7_normalize_idempotent_resolve_absent " Tamil  Nadu " "Bombay" (by decide)

/-- C10: normalize_state_name is total over missing and non string input:
every falsy value (None, zero, False, the empty string) normalizes to the
empty string, and every truthy value is first rendered with str() and then
whitespace normalized, so reconciliation never fails on a missing or non
string region name. -/
theorem C10_normalize_total_on_pyvals (v : PyVal) :
    normalize_state_name v =
      (if v.truthy then normalize_state_string v.toStr else "") ∧
    normalize_state_name .none = "" ∧
    normalize_state_name (.int 0) = "" ∧
    normalize_state_name (.bool false) = "" ∧
    normalize_state_name (.str "") = "" ∧
    normalize_state_name (.int 7) = "7" ∧
    normalize_state_name (.bool true) = "True" := by
  refine ⟨?_, by decide, by decide, by decide, by decide, by decide, by decide⟩
  unfold normalize_state_name
  by_cases h : v.truthy = true
  · rw [if_pos h, if_pos h]
  · rw [if_neg h, if_neg h]
    decide

/-- C4 counterexample: the two spellings of Jammu and Kashmir are distinct
keys that carry the same code, so the codes of the table are not unique. -/
theorem C4_counterexample :
    ("Jammu & Kashmir", "JK") ∈ STATE_NAME_TO_CODE ∧
    ("Jammu and Kashmir", "JK") ∈ STATE_NAME_TO_CODE ∧
    ("Jammu & Kashmir" : String) ≠ "Jammu and Kashmir" ∧
    ¬ (STATE_NAME_TO_CODE.map Prod.snd).Nodup := by decide

/-- C4 (amended): the table has exactly 32 entries with distinct keys that
are fixed points of normalization; its codes are unique except that the two
spelling variants of Jammu and Kashmir deliberately share the code JK (the
code JK occurs twice, every other code once), and both variants resolve to
JK. -/
theorem C4_region_code_table :
    STATE_NAME_TO_CODE.length = 32 ∧
    (STATE_NAME_TO_CODE.map Prod.fst).Nodup ∧
    (∀ k ∈ STATE_NAME_TO_CODE.map Prod.fst, normalize_state_string k = k) ∧
    (STATE_NAME_TO_CODE.map Prod.snd).count "JK" = 2 ∧
    (∀ c ∈ STATE_NAME_TO_CODE.map Prod.snd, c ≠ "JK" →
      (STATE_NAME_TO_CODE.map Prod.snd).count c = 1) ∧
    resolve "Jammu & Kashmir" = some "JK" ∧
    resolve "Jammu and Kashmir" = some "JK" := by
  refine ⟨by decide, by decide, by decide, by decide, by decide,
    by decide, by decide⟩


/-! ### Reconciliation pipeline and map join (lines 140 to 158) -/

/-- A row of sales_df after lines 140 to 142: normalized State, quantity,
and the added state_code column (missing when the lookup failed). -/
structure SalesRow where
  state : String
  quantity_kg : ℚ
  state_code : Option String
deriving DecidableEq, Repr

/-- Lines 140 to 142: normalize the State column, then map the dict over it
to add state_code. -/
def add_state_codes (sales_df : List PurchaseRecord) : List SalesRow :=
  sales_df.map (fun r =>
    let s := normalize_state_name (.str r.state)
    ⟨s, r.quantity_kg, resolve s⟩)

/-- First occurrence deduplication with a seen accumulator, as pandas
Series.unique() keeps the first occurrence of each value. -/
def uniqueAux : List String → List String → List String
  | [], _ => []
  | s :: rest, seen =>
    if s ∈ seen then uniqueAux rest seen else s :: uniqueAux rest (s :: seen)

/-- pandas Series.unique(): distinct values in first occurrence order. -/
def uniqueFirst (l : List String) : List String := uniqueAux l []

/-- Line 144: the distinct normalized names whose code lookup failed. -/
def missing_state_codes (sales_df : List PurchaseRecord) : List String :=
  uniqueFirst (((add_state_codes sales_df).filter
    (fun r => r.state_code.isNone)).map SalesRow.state)

/-- Lines 145 to 149: the warning box is shown exactly when some name is
unmatched, and lists the distinct unmatched names. -/
def missing_warning (sales_df : List PurchaseRecord) : Option (List String) :=
  if missing_state_codes sales_df = [] then none
  else some (missing_state_codes sales_df)

/-- A row of the left merge of lines 154 to 158: the capital code with the
sales fields, which are missing when no sales row carries that code. -/
structure JoinedRow where
  state_code : String
  state : Option String
  quantity_kg : Option ℚ
deriving DecidableEq, Repr

/-- Lines 151 to 158: capitals left merged with the sales columns on
state_code: each capital code keeps its matching sales rows, or one row
with missing sales fields when none match.  Sales rows whose state_code is
missing match no capital and are excluded. -/
def merged_map (capitals : List String) (sales_df : List PurchaseRecord) :
    List JoinedRow :=
  (capitals.map (fun c =>
    match (add_state_codes sales_df).filter
        (fun r => r.state_code == some c) with
    | [] => [⟨c, none, none⟩]
    | ms => ms.map (fun r => ⟨c, some r.state, some r.quantity_kg⟩))).flatten

lemma mem_uniqueAux (x : String) (l : List String) :
    ∀ seen, (x ∈ uniqueAux l seen ↔ x ∈ l ∧ x ∉ seen) := by
  induction l with
  | nil => intro seen; simp [uniqueAux]
  | cons s rest ih =>
    intro seen
    by_cases hs : s ∈ seen
    · rw [show uniqueAux (s :: rest) seen = uniqueAux rest seen by
        simp [uniqueAux, hs]]
      rw [ih seen]
      constructor
      · rintro ⟨h1, h2⟩
        exact ⟨List.mem_cons_of_mem s h1, h2⟩
      · rintro ⟨h1, h2⟩
        rcases List.mem_cons.mp h1 with h | h
        · subst h; exact absurd hs h2
        · exact ⟨h, h2⟩
    · rw [show uniqueAux (s :: rest) seen = s :: uniqueAux rest (s :: seen) by
        simp [uniqueAux, hs]]
      constructor
      · intro hx
        rcases List.mem_cons.mp hx with h | h
        · subst h
          exact ⟨List.mem_cons_self _ _, hs⟩
        · obtain ⟨h1, h2⟩ := (ih (s :: seen)).mp h
          exact ⟨List.mem_cons_of_mem s h1,
            fun hxs => h2 (List.mem_cons_of_mem s hxs)⟩
      · rintro ⟨h1, h2⟩
        by_cases hxs : x = s
        · subst hxs
          exact List.mem_cons_self _ _
        · rcases List.mem_cons.mp h1 with h | h
          · exact absurd h hxs
          · refine List.mem_cons_of_mem s ((ih (s :: seen)).mpr ⟨h, ?_⟩)
            intro hmem
            rcases List.mem_cons.mp hmem with h3 | h3
            · exact hxs h3
            · exact h2 h3

lemma nodup_uniqueAux (l : List String) :
    ∀ seen, (uniqueAux l seen).Nodup := by
  induction l with
  | nil => intro seen; simp [uniqueAux]
  | cons s rest ih =>
    intro seen
    by_cases hs : s ∈ seen
    · rw [show uniqueAux (s :: rest) seen = uniqueAux rest seen by
        simp [uniqueAux, hs]]
      exact ih seen
    · rw [show uniqueAux (s :: rest) seen = s :: uniqueAux rest (s :: seen) by
        simp [uniqueAux, hs]]
      refine List.nodup_cons.mpr ⟨?_, ih (s :: seen)⟩
      intro hmem
      exact ((mem_uniqueAux s rest (s :: seen)).mp hmem).2
        (List.mem_cons_self s seen)

lemma mem_uniqueFirst (x : String) (l : List String) :
    x ∈ uniqueFirst l ↔ x ∈ l := by
  rw [uniqueFirst, mem_uniqueAux]
  simp

lemma nodup_uniqueFirst (l : List String) : (uniqueFirst l).Nodup :=
  nodup_uniqueAux l []


/-- Summing a quantity column over the rows whose code resolved and over
the rows whose code is missing gives the whole column sum. -/
lemma sum_filter_code_split (l : List SalesRow) :
    ((l.filter (fun r => r.state_code.isSome)).map SalesRow.quantity_kg).sum +
    ((l.filter (fun r => r.state_code.isNone)).map SalesRow.quantity_kg).sum =
    (l.map SalesRow.quantity_kg).sum := by
  induction l with
  | nil => simp
  | cons r t ih =>
    cases hc : r.state_code with
    | none =>
      rw [List.filter_cons_of_neg (by simp [hc]),
        List.filter_cons_of_pos (by simp [hc])]
      simp only [List.map_cons, List.sum_cons]
      rw [← ih]
      ring
    | some c =>
      rw [List.filter_cons_of_pos (by simp [hc]),
        List.filter_cons_of_neg (by simp [hc])]
      simp only [List.map_cons, List.sum_cons]
      rw [← ih]
      ring

/-- Adding codes preserves the quantity column. -/
lemma add_state_codes_quantities (sales_df : List PurchaseRecord) :
    ((add_state_codes sales_df).map SalesRow.quantity_kg) =
      sales_df.map PurchaseRecord.quantity_kg := by
  induction sales_df with
  | nil => rfl
  | cons r t ih =>
    simp only [add_state_codes, List.map_cons, List.map_map] at *
    exact congrArg (r.quantity_kg :: ·) ih

/-- Every merged row that carries a quantity comes from a sales row whose
code resolved to that capital code. -/
lemma merged_map_quantity_from_sales (capitals : List String)
    (sales_df : List PurchaseRecord) (j : JoinedRow)
    (hj : j ∈ merged_map capitals sales_df) (q : ℚ)
    (hq : j.quantity_kg = some q) :
    ∃ r ∈ add_state_codes sales_df, r.state_code = some j.state_code ∧
      r.quantity_kg = q := by
  unfold merged_map at hj
  rw [List.mem_flatten] at hj
  obtain ⟨block, hblock, hjb⟩ := hj
  rw [List.mem_map] at hblock
  obtain ⟨c, hc, hcb⟩ := hblock
  subst hcb
  rcases hf : (add_state_codes sales_df).filter
      (fun r => r.state_code == some c) with _ | ⟨m, ms⟩
  · rw [hf] at hjb
    simp only [List.mem_singleton] at hjb
    subst hjb
    simp at hq
  · rw [hf] at hjb
    rw [List.mem_map] at hjb
    obtain ⟨r, hr, hrj⟩ := hjb
    have hrfilter : r ∈ (add_state_codes sales_df).filter
        (fun r => r.state_code == some c) := by
      rw [hf]
      exact hr
    have hmem := List.mem_filter.mp hrfilter
    refine ⟨r, hmem.1, ?_, ?_⟩
    · have hcode : r.state_code = some c := by
        have := hmem.2
        simpa using this
      rw [← hrj]
      exact hcode
    · rw [← hrj] at hq
      simpa using hq

/-- C9: an unresolved region name is not fatal: the distinct unmatched
names are deduplicated and surfaced in the warning (never dropped
silently), the unmatched rows never contribute a quantity to the map join,
and the full table total still counts matched and unmatched rows alike. -/
theorem C9_unmatched_nonfatal (sales_df : List PurchaseRecord)
    (capitals : List String) :
    (missing_state_codes sales_df).Nodup ∧
    (∀ name, name ∈ missing_state_codes sales_df ↔
      ∃ r ∈ add_state_codes sales_df, r.state_code = none ∧ r.state = name) ∧
    (∀ r ∈ add_state_codes sales_df, r.state_code = none →
      ∃ w, missing_warning sales_df = some w ∧ r.state ∈ w) ∧
    (∀ j ∈ merged_map capitals sales_df, ∀ q : ℚ, j.quantity_kg = some q →
      ∃ r ∈ add_state_codes sales_df, r.state_code = some j.state_code ∧
        r.quantity_kg = q) ∧
    total_january_sales sales_df =
      (((add_state_codes sales_df).filter
        (fun r => r.state_code.isSome)).map SalesRow.quantity_kg).sum +
      (((add_state_codes sales_df).filter
        (fun r => r.state_code.isNone)).map SalesRow.quantity_kg).sum := by
  refine ⟨nodup_uniqueFirst _, ?_, ?_, ?_, ?_⟩
  · intro name
    rw [missing_state_codes, mem_uniqueFirst, List.mem_map]
    constructor
    · rintro ⟨r, hr, rfl⟩
      have hm := List.mem_filter.mp hr
      refine ⟨r, hm.1, ?_, rfl⟩
      have := hm.2
      simpa [Option.isNone_iff_eq_none] using this
    · rintro ⟨r, hr, hcode, rfl⟩
      refine ⟨r, List.mem_filter.mpr ⟨hr, ?_⟩, rfl⟩
      simp [hcode]
  · intro r hr hcode
    have hmem : r.state ∈ missing_state_codes sales_df := by
      rw [missing_state_codes, mem_uniqueFirst, List.mem_map]
      refine ⟨r, List.mem_filter.mpr ⟨hr, by simp [hcode]⟩, rfl⟩
    refine ⟨missing_state_codes sales_df, ?_, hmem⟩
    rw [missing_warning, if_neg]
    intro hnil
    rw [hnil] at hmem
    simp at hmem
  · exact fun j hj q hq =>
      merged_map_quantity_from_sales capitals sales_df j hj q hq
  · rw [sum_filter_code_split, add_state_codes_quantities]
    rfl


/-! ### Bubble overlay (lines 174 to 198) -/

/-- Line 177: merged_map.dropna on the quantity column, keeping the code
and quantity of each row that has one. -/
def plot_rows (capitals : List String) (sales_df : List PurchaseRecord) :
    List (String × ℚ) :=
  (merged_map capitals sales_df).filterMap
    (fun j => j.quantity_kg.map (fun q => (j.state_code, q)))

/-- Line 183: (q / max_val).clip(0, 1) * 800 + 40. -/
def bubble_size (q max_val : ℚ) : ℚ :=
  min (max (q / max_val) 0) 1 * 800 + 40

/-- Line 182: the maximum of the plotted quantity column. -/
def qmax : List ℚ → ℚ
  | [] => 0
  | q :: qs => qs.foldl max q

/-- What the map section draws over the boundary: either the explicit no
data message of line 179 or one sized bubble per plotted row. -/
inductive MapOverlay
  | noData
  | bubbles (sizes : List (String × ℚ))
deriving DecidableEq, Repr

/-- Lines 177 to 194: an empty join gives the explicit no data message,
otherwise each plotted row is drawn with its bubble size. -/
def map_overlay (capitals : List String) (sales_df : List PurchaseRecord) :
    MapOverlay :=
  match plot_rows capitals sales_df with
  | [] => .noData
  | ps => .bubbles (ps.map
      (fun p => (p.1, bubble_size p.2 (qmax (ps.map Prod.snd)))))

/-- C8: the bubble size is the linear interpolation 40 + 800 (q / max)
between the fixed minimum 40 and maximum 840 pixel sizes for quantities
between zero and the maximum, the row at the maximum gets size 840, and
when no joined row carries a quantity the overlay is the explicit no data
outcome rather than a failure. -/
theorem C8_bubble_overlay (capitals : List String)
    (sales_df : List PurchaseRecord) (q max_val : ℚ)
    (hpos : 0 < max_val) (hq0 : 0 ≤ q) (hqm : q ≤ max_val) :
    bubble_size q max_val = 40 + (q / max_val) * 800 ∧
    40 ≤ bubble_size q max_val ∧
    bubble_size q max_val ≤ 840 ∧
    bubble_size max_val max_val = 840 ∧
    ((∀ j ∈ merged_map capitals sales_df, j.quantity_kg = none) →
      map_overlay capitals sales_df = .noData) ∧
    (∀ j ∈ merged_map capitals sales_df, j.quantity_kg ≠ none →
      map_overlay capitals sales_df ≠ .noData) := by
  have hx0 : 0 ≤ q / max_val := div_nonneg hq0 (le_of_lt hpos)
  have hx1 : q / max_val ≤ 1 := (div_le_one hpos).mpr hqm
  have hclip : min (max (q / max_val) 0) 1 = q / max_val := by
    rw [max_eq_left hx0, min_eq_left hx1]
  refine ⟨?_, ?_, ?_, ?_, ?_, ?_⟩
  · rw [bubble_size, hclip]
    ring
  · rw [bubble_size, hclip]
    nlinarith
  · rw [bubble_size, hclip]
    nlinarith
  · rw [bubble_size, div_self (ne_of_gt hpos)]
    norm_num
  · intro hall
    have hnil : plot_rows capitals sales_df = [] := by
      rw [plot_rows, List.filterMap_eq_nil_iff]
      intro j hj
      rw [hall j hj]
      rfl
    rw [map_overlay, hnil]
  · intro j hj hne hcontra
    rcases hps : plot_rows capitals sales_df with _ | ⟨p, ps⟩
    · rw [plot_rows, List.filterMap_eq_nil_iff] at hps
      have := hps j hj
      cases hq : j.quantity_kg with
      | none => exact hne hq
      | some v =>
        rw [hq] at this
        simp at this
    · rw [map_overlay, hps] at hcontra
      exact MapOverlay.noConfusion hcontra

/-- C8 witness: the theorem applied at quantity 1, maximum 2, one capital
and an empty purchase table (whose join carries no quantity). -/
theorem C8_bubble_overlay_witness :
    bubble_size 1 2 = 40 + ((1 : ℚ) / 2) * 800 ∧
    40 ≤ bubble_size 1 2 ∧
    bubble_size 1 2 ≤ 840 ∧
    bubble_size 2 2 = 840 ∧
    ((∀ j ∈ merged_map ["KL"] [], j.quantity_kg = none) →
      map_overlay ["KL"] [] = .noData) ∧
    (∀ j ∈ merged_map ["KL"] [], j.quantity_kg ≠ none →
      map_overlay ["KL"] [] ≠ .noData) :=
  C8_bubble_overlay ["KL"] [] 1 2 (by norm_num) (by norm_num) (by norm_num)


/-! ### Whole page control flow (lines 38 to 42, 91 to 93, 160 to 171,
204 to 239)

The script renders sections top to bottom.  Two conditions inside the map
section call st.stop() after st.error: a missing state code column on the
capitals layer (lines 91 to 93) and a reprojection failure (lines 160 to
171).  st.stop() halts the whole script, so the top five chart and the
January total that come later never render in those runs.  The quantity
column sniffing of lines 222 to 230 likewise stops before the total. -/

/-- Python str.lower() on the character level. -/
def lowerCs (cs : List Char) : List Char := cs.map Char.toLower

/-- Lines 38 to 42: the first capitals column whose lowercase name is
state. -/
def capitals_code_col (cols : List String) : Option String :=
  cols.find? (fun c => lowerCs c.data == "state".data)

/-- Lines 222 to 226: the first sales column whose lowercase name contains
silver and kg. -/
def find_qty_col (cols : List String) : Option String :=
  cols.find? (fun c => decide ("silver".data <:+: lowerCs c.data) &&
    decide ("kg".data <:+: lowerCs c.data))

/-- The inputs of one render pass: the capitals layer columns and its code
column values, whether CRS reprojection succeeds (the try block of lines
160 to 171), the sales table columns and rows. -/
structure DashInputs where
  capitals_columns : List String
  capitals_codes : List String
  reproject_ok : Bool
  sales_columns : List String
  sales_df : List PurchaseRecord
deriving Repr

/-- Which parts of the page one run produced: the price chart, the
unmatched name warning, the error message of the map region if any, the
map overlay if the map section completed, the top five chart, and the
January total metric. -/
structure RenderOutcome where
  price_chart : Bool
  warning : Option (List String)
  map_error : Option String
  map_section : Option MapOverlay
  top5_chart : Bool
  total_metric : Option ℚ
deriving DecidableEq, Repr

/-- The whole script, top to bottom, with st.stop() modelled by returning
the outcome accumulated so far: the price section always renders; a
missing code column or a reprojection failure emits an error and stops, so
everything after the map section is skipped in those runs. -/
def runDashboard (i : DashInputs) : RenderOutcome :=
  if (capitals_code_col i.capitals_columns).isNone then
    { price_chart := true
      warning := none
      map_error := some "Could not find a state code column in State_Capitals.shp"
      map_section := none
      top5_chart := false
      total_metric := none }
  else
    let warn := missing_warning i.sales_df
    if i.reproject_ok = false then
      { price_chart := true
        warning := warn
        map_error := some "Failed to reproject map layers"
        map_section := none
        top5_chart := false
        total_metric := none }
    else
      let overlay := map_overlay i.capitals_codes i.sales_df
      { price_chart := true
        warning := warn
        map_error := if overlay = .noData then
            some "No sales data could be joined to the map" else none
        map_section := some overlay
        top5_chart := true
        total_metric := if (find_qty_col i.sales_columns).isNone then none
          else some (total_january_sales i.sales_df) }

/-- C3 counterexample: with a capitals layer that has no state column the
run reports the error but the top five chart and the total metric do not
render, against the claim that sections without a data dependency on the
map still render. -/
theorem C3_counterexample :
    (runDashboard ⟨["NAME"], ["KL"], true, ["State", "Silver_Purchased_kg"],
      [⟨"Kerala", 10⟩]⟩).map_error.isSome = true ∧
    (runDashboard ⟨["NAME"], ["KL"], true, ["State", "Silver_Purchased_kg"],
      [⟨"Kerala", 10⟩]⟩).top5_chart = false ∧
    (runDashboard ⟨["NAME"], ["KL"], true, ["State", "Silver_Purchased_kg"],
      [⟨"Kerala", 10⟩]⟩).total_metric = none := by
  have he : runDashboard ⟨["NAME"], ["KL"], true,
      ["State", "Silver_Purchased_kg"], [⟨"Kerala", 10⟩]⟩ =
      { price_chart := true
        warning := none
        map_error := some "Could not find a state code column in State_Capitals.shp"
        map_section := none
        top5_chart := false
        total_metric := none } := by
    rw [runDashboard, if_pos (by decide)]
  rw [he]
  exact ⟨rfl, rfl, rfl⟩

/-- C3 (amended): a fatal condition inside the map section, a missing geo
code column or a CRS reprojection failure, is converted to a user visible
message but aborts the whole remaining pass, not only the map: the price
chart before the map still renders, while the top five chart and the total
metric after it do not. -/
theorem C3_map_fatal_aborts_pass (i : DashInputs)
    (h : capitals_code_col i.capitals_columns = none ∨
      i.reproject_ok = false) :
    (runDashboard i).map_error.isSome = true ∧
    (runDashboard i).price_chart = true ∧
    (runDashboard i).map_section = none ∧
    (runDashboard i).top5_chart = false ∧
    (runDashboard i).total_metric = none := by
  by_cases h2 : (capitals_code_col i.capitals_columns).isNone = true
  · rw [runDashboard, if_pos h2]
    exact ⟨rfl, rfl, rfl, rfl, rfl⟩
  · have hrep : i.reproject_ok = false := by
      rcases h with h | h
      · exact absurd (by rw [h]; rfl) h2
      · exact h
    rw [runDashboard, if_neg h2, if_pos hrep]
    exact ⟨rfl, rfl, rfl, rfl, rfl⟩

/-- C3 witness: the amended theorem applied to a run whose reprojection
fails. -/
theorem C3_map_fatal_witness :
    (runDashboard ⟨["State"], ["KL"], false, ["State", "Silver_Purchased_kg"],
      [⟨"Kerala", 10⟩]⟩).map_error.isSome = true ∧
    (runDashboard ⟨["State"], ["KL"], false, ["State", "Silver_Purchased_kg"],
      [⟨"Kerala", 10⟩]⟩).price_chart = true ∧
    (runDashboard ⟨["State"], ["KL"], false, ["State", "Silver_Purchased_kg"],
      [⟨"Kerala", 10⟩]⟩).map_section = none ∧
    (runDashboard ⟨["State"], ["KL"], false, ["State", "Silver_Purchased_kg"],
      [⟨"Kerala", 10⟩]⟩).top5_chart = false ∧
    (runDashboard ⟨["State"], ["KL"], false, ["State", "Silver_Purchased_kg"],
      [⟨"Kerala", 10⟩]⟩).total_metric = none :=
  C3_map_fatal_aborts_pass
    ⟨["State"], ["KL"], false, ["State", "Silver_Purchased_kg"],
      [⟨"Kerala", 10⟩]⟩ (Or.inr rfl)

end SilverDash
